import Mathlib

/-!
# Verification of the chordtokit capture-and-remap core

Shallow embedding of the capture/codec/state logic of the chordtokit
repository:

* `features/ddti.py` — the `DDTi` class: SysEx frame codec, device state
  tracking, kit0 raw-frame cache (ingestion, extraction, single-note patch);
* `features/chord_capture.py` — the `ChordCapture` class: note collection,
  chord resolution and remap, dispatch, bounded undo history;
* `constants.py` — `DDTI_NOTE_OFFSETS`;
* `hw/midi_io.py` — the `Midi` transport adapter, modelled abstractly: its
  `iter_input` is represented by a pending-message queue that each poll
  drains, and its `send` (which catches exceptions internally and returns a
  boolean, lines 177-186) by a boolean outcome field.

Machine bytes and MIDI notes are modelled as `Nat` with explicit `% 128`
where the code masks with `& 0x7F`; Python exceptions raised by the
embedded functions become `Except String`; in-place mutation becomes
explicit state passing.  Python `bytes`/`bytearray` values are `List Nat`.
-/

namespace Chordtokit

/-- `DDTI_NOTE_OFFSETS` from `constants.py` line 50: byte offsets of the four
note slots inside the template frame. -/
def DDTI_NOTE_OFFSETS : List Nat := [11, 17, 23, 29]

/-- `DDTi._bulk_note_offsets` (`ddti.py` line 33): note offsets inside a
cached 76-byte kit0 bulk frame. -/
def bulkNoteOffsets : List Nat := [11, 17, 23, 29]

/-- `_Kit0Cache` (`ddti.py` lines 15-20).  The wall-clock timestamp field
`ts` is not modelled (it only feeds `kit0_age_seconds`, which no embedded
operation reads). -/
structure Kit0Cache where
  bulk : Option (List Nat) := none
  param : Option (List Nat) := none
  notes : Option (List Nat) := none
  deriving DecidableEq, Repr

/-- The `DDTi` object state (`ddti.py` lines 22-33): slot offsets, the
template bytes loaded from disk at construction, the tracked current state,
and the session-only kit0 cache. -/
structure DDTi where
  note_offsets : List Nat
  template : List Nat
  current_state : Option (List Nat)
  kit0 : Kit0Cache
  deriving DecidableEq, Repr

/-- A freshly constructed `DDTi` (`__init__`, lines 23-33) over given
template bytes. -/
def DDTi.mk0 (template : List Nat) : DDTi :=
  { note_offsets := DDTI_NOTE_OFFSETS
    template := template
    current_state := none
    kit0 := {} }

/-- `DDTi.set_current_state` (lines 35-39): validates only the length of
`notes` against the slot count, then stores the list as-is. -/
def DDTi.set_current_state (d : DDTi) (notes : List Nat) : Except String DDTi :=
  if notes.length ≠ d.note_offsets.length then
    .error "Need exactly the slot count of notes"
  else
    .ok { d with current_state := some notes }

/-- `DDTi.get_current_state` (lines 41-43).  Python tests the truthiness of
`self._current_state`, so an empty stored list also yields `None`. -/
def DDTi.get_current_state (d : DDTi) : Option (List Nat) :=
  match d.current_state with
  | some s => if s.isEmpty then none else some s
  | none => none

/-- `DDTi._validate_notes` (lines 51-59): checks the count, checks each note
is in `[0, 127]`, and returns the notes masked with `& 0x7F`. -/
def validate_notes (notes : List Nat) (expected : Nat) : Except String (List Nat) :=
  if notes.length ≠ expected then
    .error "Need exactly expected MIDI notes"
  else if notes.all (fun n => n ≤ 127) then
    .ok (notes.map (fun n => n % 128))
  else
    .error "Bad MIDI note"

/-- The slot-write loop shared by `build_full_sysex` (lines 64-66) and
`build_partial_sysex` (lines 104-106): `for i, off in enumerate(offsets):
buf[off] = vals[i]` over a copy of the template. -/
def writeSlots (template offsets vals : List Nat) : List Nat :=
  (offsets.zip vals).foldl (fun buf ov => buf.set ov.1 ov.2) template

/-- `DDTi.build_full_sysex` (lines 61-70): validates and masks the notes,
writes them at the slot offsets over the template, updates the tracked
current state, and returns the frame bytes. -/
def DDTi.build_full_sysex (d : DDTi) (notes : List Nat) :
    Except String (DDTi × List Nat) :=
  match validate_notes notes d.note_offsets.length with
  | .error e => .error e
  | .ok ns =>
    .ok ({ d with current_state := some ns }, writeSlots d.template d.note_offsets ns)

/-- The change-application loop of `build_partial_sysex` (lines 94-101):
starts from the current state and sets each changed slot after checking the
new value is in `[0, 127]` (no masking on this path). -/
def applyChanges : List Nat → List (Nat × Nat) → Except String (List Nat)
  | st, [] => .ok st
  | st, c :: rest =>
    if c.2 ≤ 127 then applyChanges (st.set c.1 c.2) rest
    else .error "Invalid MIDI note"

/-- The merged slot values: `base` with each `(index, value)` change of
`changes` applied in order (the state produced by the loop at lines 94-101,
with the validation stripped). -/
def mergeChanges (base : List Nat) (changes : List (Nat × Nat)) : List Nat :=
  changes.foldl (fun st c => st.set c.1 c.2) base

/-- `DDTi.build_partial_sysex` (lines 72-110): requires a known current
state, validates the changed slot indices and values, merges the changes
into the current state, writes the merged state at the slot offsets, and
updates the tracked state.  A Python `dict` of changes is modelled as an
association list applied in insertion order. -/
def DDTi.build_partial_sysex (d : DDTi) (changes : List (Nat × Nat)) :
    Except String (DDTi × List Nat) :=
  match d.current_state with
  | none => .error "Cannot do partial update: current DDTi state unknown"
  | some cs =>
    if changes.all (fun c => c.1 < d.note_offsets.length) then
      match applyChanges cs changes with
      | .error e => .error e
      | .ok ns =>
        .ok ({ d with current_state := some ns }, writeSlots d.template d.note_offsets ns)
    else .error "Invalid trigger index"

/-- `DDTi.ingest_sysex_frame` (lines 161-175): a 76-byte frame with header
bytes `70, 1, 0` at positions 7, 8, 9 is cached as the kit0 bulk frame
(resetting the lazily extracted notes); a 16-byte frame with header bytes
`10, 2, 0` is cached as the param frame; anything else is ignored. -/
def DDTi.ingest_sysex_frame (d : DDTi) (data : List Nat) : DDTi :=
  let ln := data.length
  if ln = 76 ∧ ln > 10 ∧ data.getD 7 0 = 70 ∧ data.getD 8 0 = 1 ∧ data.getD 9 0 = 0 then
    { d with kit0 := { d.kit0 with bulk := some data, notes := none } }
  else if ln = 16 ∧ ln > 10 ∧ data.getD 7 0 = 10 ∧ data.getD 8 0 = 2 ∧ data.getD 9 0 = 0 then
    { d with kit0 := { d.kit0 with param := some data } }
  else d

/-- `DDTi.have_kit0_bulk` (lines 177-178). -/
def DDTi.have_kit0_bulk (d : DDTi) : Bool :=
  d.kit0.bulk.isSome

/-- `DDTi.extract_kit0_notes` (lines 183-192): returns `none` without a
cached (non-empty) bulk frame or when the frame is shorter than the largest
bulk note offset; otherwise reads the bytes at `bulkNoteOffsets` masked with
`& 0x7F`, caching the result.  Returns the possibly updated object together
with the extracted notes. -/
def DDTi.extract_kit0_notes (d : DDTi) : DDTi × Option (List Nat) :=
  match d.kit0.bulk with
  | none => (d, none)
  | some b =>
    if b.isEmpty then (d, none)
    else
      match d.kit0.notes with
      | some ns => (d, some ns)
      | none =>
        if bulkNoteOffsets.foldl max 0 ≥ b.length then (d, none)
        else
          let ns := bulkNoteOffsets.map (fun o => b.getD o 0 % 128)
          ({ d with kit0 := { d.kit0 with notes := some ns } }, some ns)

/-- `DDTi.build_kit0_single_note_patch` (lines 194-220): replaces all
occurrences of `old_note` among the cached kit0 notes with
`new_note & 0x7F`, rewriting the corresponding bulk-frame bytes, and
returns the patched 76-byte frame; returns `none` when no bulk frame is
cached, extraction fails, `old_note` does not occur, or the notes are
identical. -/
def DDTi.build_kit0_single_note_patch (d : DDTi) (old_note new_note : Nat) :
    DDTi × Option (List Nat) :=
  if ¬ d.have_kit0_bulk then (d, none)
  else
    match d.extract_kit0_notes with
    | (d1, none) => (d1, none)
    | (d1, some notes) =>
      let hits := (List.range notes.length).filter (fun i => notes.getD i 0 = old_note)
      if hits.isEmpty then (d1, none)
      else if old_note = new_note then (d1, none)
      else
        let bulk := d1.kit0.bulk.getD []
        let buf := hits.foldl (fun b idx => b.set (bulkNoteOffsets.getD idx 0) (new_note % 128)) bulk
        let notes2 := hits.foldl (fun ns idx => ns.set idx (new_note % 128)) notes
        ({ d1 with kit0 := { d1.kit0 with bulk := some buf, notes := some notes2 } }, some buf)

/-- One pending MIDI message as inspected by
`ChordCapture.process_midi_input` (`chord_capture.py` lines 103-104):
whether its type is `note_on`, plus note and velocity. -/
structure MidiMsg where
  isNoteOn : Bool
  note : Nat
  velocity : Nat
  deriving DecidableEq, Repr

/-- Note-on message with velocity 1. -/
def mkNoteOn (n : Nat) : MidiMsg :=
  { isNoteOn := true, note := n, velocity := 1 }

/-- The transport adapter state (`hw/midi_io.py`): the queue of pending
input messages that `iter_input` drains, and the boolean result that `send`
(lines 177-186, which catches its own exceptions) returns. -/
structure MidiState where
  pending : List MidiMsg
  sendOk : Bool
  deriving DecidableEq, Repr

/-- A history entry (`chord_capture.py` lines 145, 222, 228): a dict tagged
`"mapping"` carrying a prior slot assignment, or `"kit0"` carrying a prior
raw bulk frame. -/
inductive HistoryEntry where
  | mapping (state : List Nat)
  | kit0 (bulk : List Nat)
  deriving DecidableEq, Repr

/-- The `ChordCapture` object state (`chord_capture.py` lines 16-45). -/
structure ChordCapture where
  max_notes : Nat
  timeout_seconds : Nat
  allow_duplicates : Bool
  octave_down_lowest : Bool
  ddti : DDTi
  bucket : List Nat
  last_note_time : Nat
  active : Bool
  last_sent_chord : Option (List Nat)
  undo_limit : Nat
  history : List HistoryEntry
  learned_mapping : Option (List Nat)
  deriving DecidableEq, Repr

/-- `ChordCapture._push_history_entry` (lines 208-216): drop the push when
the entry equals the current top (most-recent-last), otherwise append and,
past the bound, evict the oldest entry.  (The `if not entry` guard cannot
fire: every pushed dict is non-empty.) -/
def push_history_entry (hist : List HistoryEntry) (limit : Nat) (e : HistoryEntry) :
    List HistoryEntry :=
  if hist.getLast? = some e then hist
  else
    let h := hist ++ [e]
    if h.length > limit then h.tail else h

/-- Python `sorted` ascending (line 127). -/
def sortAsc (l : List Nat) : List Nat :=
  l.insertionSort (· ≤ ·)

/-- Python `sorted(·, reverse=True)` (line 131). -/
def sortDesc (l : List Nat) : List Nat :=
  l.insertionSort (· ≥ ·)

/-- Python `list(OrderedDict.fromkeys(bucket))` (line 127): deduplication
keeping first occurrences in order. -/
def dedupFirst (l : List Nat) : List Nat :=
  l.foldl (fun acc x => if x ∈ acc then acc else acc ++ [x]) []

/-- `ChordCapture._apply_octave_down` (lines 164-178): transpose the first
occurrence of the lowest note down 12 semitones, floored at 0. -/
def applyOctaveDown (chord : List Nat) : List Nat :=
  if chord.isEmpty then chord
  else
    let lowest := chord.foldl min (chord.headD 0)
    chord.set (chord.indexOf lowest) (max 0 (lowest - 12))

/-- Chord resolution (lines 122-127): duplicates allowed — first
`max_notes` notes in arrival order; duplicates disallowed — dedupe keeping
first occurrences, sort ascending, take `max_notes`. -/
def resolveChord (allow_duplicates : Bool) (max_notes : Nat) (bucket : List Nat) :
    List Nat :=
  if allow_duplicates then bucket.take max_notes
  else (sortAsc (dedupFirst bucket)).take max_notes

/-- The fixed remap (lines 130-139): sort the resolved chord descending and
reassign `[kick, snare, hihat, ride] = [sorted[3], sorted[0], sorted[1],
sorted[2]]`.  (The code indexes positions 3, 0, 1, 2 unconditionally; it is
reached only with a chord of length `max_notes = 4`.) -/
def remapChord (chord : List Nat) : List Nat :=
  let s := sortDesc chord
  [s.getD 3 0, s.getD 0 0, s.getD 1 0, s.getD 2 0]

/-- The dispatch block of `process_midi_input` (lines 142-156): push the
previous known state (when truthy) onto history, build the full frame
(updating the DDTi state), send it, and record `last_sent_chord` and the
learned mapping.  `Midi.send` returns a boolean that the code ignores, so
`sendOk` does not influence the resulting engine state; an exception from
`build_full_sysex` is caught, leaving the DDTi untouched. -/
def dispatchChord (c : ChordCapture) (final_chord : List Nat) (sendOk : Bool) :
    ChordCapture :=
  let c1 :=
    match c.ddti.get_current_state with
    | some prev =>
      { c with history := push_history_entry c.history c.undo_limit (.mapping prev) }
    | none => c
  match c1.ddti.build_full_sysex final_chord with
  | .error _ => c1
  | .ok (d2, _frame) =>
    let _ok := sendOk
    { c1 with
        ddti := d2
        last_sent_chord := d2.get_current_state
        learned_mapping := some final_chord }

/-- `ChordCapture.process_midi_input` (lines 81-162), one poll at monotonic
time `now`.  The result is the updated engine, the updated transport state
(pending input is always drained, also when inactive), and the return value
(the resolved chord on completion, otherwise `none`). -/
def process_midi_input (c : ChordCapture) (m : MidiState) (now : Nat) :
    ChordCapture × MidiState × Option (List Nat) :=
  if ¬ c.active then
    (c, { m with pending := [] }, none)
  else
    let c0 :=
      if ¬ c.bucket.isEmpty ∧ now - c.last_note_time > c.timeout_seconds then
        { c with bucket := [] }
      else c
    let step := fun (acc : List Nat) (msg : MidiMsg) =>
      if msg.isNoteOn ∧ msg.velocity > 0 then
        if c0.allow_duplicates then acc ++ [msg.note]
        else if msg.note ∈ c0.bucket then acc
        else acc ++ [msg.note]
      else acc
    let new_notes := m.pending.foldl step []
    let c1 :=
      if new_notes.isEmpty then c0
      else { c0 with bucket := c0.bucket ++ new_notes, last_note_time := now }
    let m1 := { m with pending := [] }
    if c1.bucket.length ≥ c1.max_notes then
      let chord := resolveChord c1.allow_duplicates c1.max_notes c1.bucket
      if chord.length = c1.max_notes then
        let final0 := remapChord chord
        let final_chord := if c1.octave_down_lowest then applyOctaveDown final0 else final0
        ({ dispatchChord c1 final_chord m.sendOk with bucket := [] }, m1, some chord)
      else (c1, m1, none)
    else (c1, m1, none)

/-- `ChordCapture.undo_last_mapping` (lines 230-276): pop the most recent
history entry; a `mapping` entry is replayed through `build_full_sysex` and
sent; a `kit0` entry reaches `self.ddti.restore_kit0_bulk(bulk)` — a method
the `DDTi` class does not define anywhere in the repository — so the
attribute lookup raises `AttributeError` before any DDTi state change, the
broad `except` at line 274 catches it, and the call returns `False`. -/
def undo_last_mapping (c : ChordCapture) (sendOk : Bool) : ChordCapture × Bool :=
  match c.history.getLast? with
  | none => (c, false)
  | some entry =>
    let c1 := { c with history := c.history.dropLast }
    match entry with
    | .mapping state =>
      if state.isEmpty then (c1, false)
      else
        match c1.ddti.build_full_sysex state with
        | .error _ => (c1, false)
        | .ok (d2, _frame) =>
          if sendOk then
            ({ c1 with ddti := d2, last_sent_chord := some state }, true)
          else ({ c1 with ddti := d2 }, false)
    | .kit0 bulk =>
      if bulk.isEmpty then (c1, false)
      else (c1, false)

/-- Slot extraction at the note offsets: the computation of
`extract_kit0_notes` line 191 (`[frame[o] & 0x7F for o in offsets]`) read at
`DDTI_NOTE_OFFSETS` (which coincides with `_bulk_note_offsets`). -/
def extract_slots (frame : List Nat) : List Nat :=
  DDTI_NOTE_OFFSETS.map (fun o => frame.getD o 0 % 128)

/-! ## Concrete fixtures -/

/-- A 76-byte all-zero template, standing in for the loaded template file. -/
def tpl76 : List Nat := List.replicate 76 0

/-- A recognizable kit0 bulk dump: 76 bytes with header `70, 1, 0` at
positions 7, 8, 9. -/
def kit0BulkFrame : List Nat := ((List.replicate 76 0).set 7 70).set 8 1

/-- A freshly activated capture engine with the default construction
parameters of `ChordCapture.__init__` (`max_notes = 4`,
`timeout_seconds = 5`, duplicates disallowed, `undo_limit = 8`). -/
def freshCapture : ChordCapture :=
  { max_notes := 4
    timeout_seconds := 5
    allow_duplicates := false
    octave_down_lowest := false
    ddti := DDTi.mk0 tpl76
    bucket := []
    last_note_time := 0
    active := true
    last_sent_chord := none
    undo_limit := 8
    history := []
    learned_mapping := none }

/-- Engine holding a kit0 raw-frame undo snapshot: the cached bulk frame has
been patched (byte 11 set to 48), and the pre-patch frame sits on top of the
history, exactly the situation `record_kit0_bulk_for_undo` prepares. -/
def capWithKit0History : ChordCapture :=
  { freshCapture with
      ddti := { DDTi.mk0 tpl76 with
                  kit0 := { bulk := some (kit0BulkFrame.set 11 48)
                            param := none
                            notes := none } }
      history := [.kit0 kit0BulkFrame] }

/-- Engine with a known device state `[36, 38, 42, 49]` and three notes
already in the bucket, one note short of a chord. -/
def capNearComplete : ChordCapture :=
  { freshCapture with
      ddti := { DDTi.mk0 tpl76 with current_state := some [36, 38, 42, 49] }
      bucket := [1, 2, 3] }

/-- The duplicates-allowed variant of `freshCapture`. -/
def freshCaptureDup : ChordCapture :=
  { freshCapture with allow_duplicates := true }

/-- Two successive polls (times 0 and 1) each delivering a single note-on
for `n`, starting from engine `c`. -/
def twoPolls (c : ChordCapture) (n : Nat) : ChordCapture :=
  (process_midi_input
    (process_midi_input c { pending := [mkNoteOn n], sendOk := true } 0).1
    { pending := [mkNoteOn n], sendOk := true } 1).1

/-! ## Helper lemmas -/

theorem getD_set_ne (l : List Nat) (i j v d : Nat) (h : i ≠ j) :
    (l.set i v).getD j d = l.getD j d := by
  rw [List.getD_eq_getElem?_getD, List.getD_eq_getElem?_getD, List.getElem?_set_ne h]

theorem getD_set_self (l : List Nat) (i v d : Nat) (h : i < l.length) :
    (l.set i v).getD i d = v := by
  rw [List.getD_eq_getElem?_getD, List.getElem?_set_eq_of_lt v h, Option.getD_some]

theorem length_foldl_set (pairs : List (Nat × Nat)) (t : List Nat) :
    (pairs.foldl (fun buf ov => buf.set ov.1 ov.2) t).length = t.length := by
  induction pairs generalizing t with
  | nil => rfl
  | cons p rest ih => rw [List.foldl_cons, ih, List.length_set]

theorem foldl_set_getD_not_mem (pairs : List (Nat × Nat)) (t : List Nat) (o d : Nat)
    (h : o ∉ pairs.map Prod.fst) :
    (pairs.foldl (fun buf ov => buf.set ov.1 ov.2) t).getD o d = t.getD o d := by
  induction pairs generalizing t with
  | nil => rfl
  | cons p rest ih =>
    simp only [List.map_cons, List.mem_cons, not_or] at h
    rw [List.foldl_cons, ih _ h.2, getD_set_ne _ _ _ _ _ (Ne.symm h.1)]

theorem foldl_set_getD_le (pairs : List (Nat × Nat)) (t : List Nat) (o : Nat)
    (hv : ∀ p ∈ pairs, p.2 ≤ 127) (ho : o ∈ pairs.map Prod.fst) (hl : o < t.length) :
    (pairs.foldl (fun buf ov => buf.set ov.1 ov.2) t).getD o 0 ≤ 127 := by
  induction pairs generalizing t with
  | nil => simp at ho
  | cons p rest ih =>
    rw [List.foldl_cons]
    by_cases hm : o ∈ rest.map Prod.fst
    · exact ih (t.set p.1 p.2) (fun q hq => hv q (List.mem_cons_of_mem _ hq)) hm
        (by rw [List.length_set]; exact hl)
    · have ho1 : o = p.1 := by
        simp only [List.map_cons, List.mem_cons] at ho
        tauto
      rw [foldl_set_getD_not_mem _ _ _ _ hm, ho1,
        getD_set_self _ _ _ _ (ho1 ▸ hl)]
      exact hv p (List.mem_cons_self _ _)

theorem foldl_setf_getD_or (idxs : List Nat) (f : Nat → Nat) (t : List Nat)
    (v o d : Nat) :
    (idxs.foldl (fun b i => b.set (f i) v) t).getD o d = t.getD o d ∨
    (idxs.foldl (fun b i => b.set (f i) v) t).getD o d = v := by
  induction idxs generalizing t with
  | nil => exact Or.inl rfl
  | cons i rest ih =>
    rw [List.foldl_cons]
    rcases ih (t.set (f i) v) with h | h
    · rw [h]
      by_cases hio : f i = o
      · subst hio
        by_cases hl : f i < t.length
        · exact Or.inr (getD_set_self _ _ _ _ hl)
        · rw [List.set_eq_of_length_le (Nat.le_of_not_lt hl)]
          exact Or.inl rfl
      · rw [getD_set_ne _ _ _ _ _ hio]
        exact Or.inl rfl
    · exact Or.inr h

theorem validate_notes_ok (notes : List Nat) (k : Nat) (ns : List Nat)
    (h : validate_notes notes k = .ok ns) :
    ns = notes.map (fun n => n % 128) := by
  unfold validate_notes at h
  split at h
  · exact absurd h (by simp)
  · split at h
    · exact (Except.ok.injEq _ _ ▸ h).symm
    · exact absurd h (by simp)

theorem mask_eq_self (l : List Nat) (h : ∀ v ∈ l, v ≤ 127) :
    l.map (fun n => n % 128) = l := by
  induction l with
  | nil => rfl
  | cons x xs ih =>
    rw [List.map_cons, Nat.mod_eq_of_lt (Nat.lt_succ_of_le (h x (List.mem_cons_self _ _))),
      ih (fun v hv => h v (List.mem_cons_of_mem _ hv))]

theorem applyChanges_ok (B : List Nat) (C : List (Nat × Nat))
    (h : ∀ p ∈ C, p.2 ≤ 127) :
    applyChanges B C = .ok (mergeChanges B C) := by
  induction C generalizing B with
  | nil => rfl
  | cons p rest ih =>
    rw [applyChanges, if_pos (h p (List.mem_cons_self _ _))]
    exact ih _ (fun q hq => h q (List.mem_cons_of_mem _ hq))

theorem applyChanges_ok_inv (B : List Nat) (C : List (Nat × Nat)) (ns : List Nat)
    (h : applyChanges B C = .ok ns) (hB : ∀ v ∈ B, v ≤ 127) :
    (∀ v ∈ ns, v ≤ 127) ∧ ns.length = B.length := by
  induction C generalizing B with
  | nil =>
    rw [applyChanges] at h
    cases h
    exact ⟨hB, rfl⟩
  | cons p rest ih =>
    rw [applyChanges] at h
    split at h
    · rename_i hp
      have := ih (B.set p.1 p.2) h (fun v hv => by
        rcases List.mem_or_eq_of_mem_set hv with h' | h'
        · exact hB v h'
        · exact h' ▸ hp)
      exact ⟨this.1, this.2.trans (List.length_set ..)⟩
    · exact absurd h (by simp)

theorem length_mergeChanges (B : List Nat) (C : List (Nat × Nat)) :
    (mergeChanges B C).length = B.length := by
  induction C generalizing B with
  | nil => rfl
  | cons p rest ih => rw [mergeChanges, List.foldl_cons, ← mergeChanges, ih, List.length_set]

theorem mem_mergeChanges_le (B : List Nat) (C : List (Nat × Nat))
    (hB : ∀ v ∈ B, v ≤ 127) (hC : ∀ p ∈ C, p.2 ≤ 127) :
    ∀ v ∈ mergeChanges B C, v ≤ 127 := by
  induction C generalizing B with
  | nil => exact hB
  | cons p rest ih =>
    rw [mergeChanges, List.foldl_cons, ← mergeChanges]
    refine ih _ (fun v hv => ?_) (fun q hq => hC q (List.mem_cons_of_mem _ hq))
    rcases List.mem_or_eq_of_mem_set hv with h' | h'
    · exact hB v h'
    · exact h' ▸ hC p (List.mem_cons_self _ _)

theorem writeSlots_getD_concrete (t : List Nat) (a b c e : Nat) (ht : 29 < t.length) :
    (writeSlots t [11, 17, 23, 29] [a, b, c, e]).getD 11 0 = a ∧
    (writeSlots t [11, 17, 23, 29] [a, b, c, e]).getD 17 0 = b ∧
    (writeSlots t [11, 17, 23, 29] [a, b, c, e]).getD 23 0 = c ∧
    (writeSlots t [11, 17, 23, 29] [a, b, c, e]).getD 29 0 = e := by
  have hw : writeSlots t [11, 17, 23, 29] [a, b, c, e] =
      (((t.set 11 a).set 17 b).set 23 c).set 29 e := rfl
  have l11 : (11 : Nat) < t.length := by omega
  have l17 : (17 : Nat) < (t.set 11 a).length := by rw [List.length_set]; omega
  have l23 : (23 : Nat) < ((t.set 11 a).set 17 b).length := by
    rw [List.length_set, List.length_set]; omega
  have l29 : (29 : Nat) < (((t.set 11 a).set 17 b).set 23 c).length := by
    rw [List.length_set, List.length_set, List.length_set]; omega
  refine ⟨?_, ?_, ?_, ?_⟩ <;> rw [hw]
  · rw [getD_set_ne _ _ _ _ _ (by decide), getD_set_ne _ _ _ _ _ (by decide),
      getD_set_ne _ _ _ _ _ (by decide), getD_set_self _ _ _ _ l11]
  · rw [getD_set_ne _ _ _ _ _ (by decide), getD_set_ne _ _ _ _ _ (by decide),
      getD_set_self _ _ _ _ l17]
  · rw [getD_set_ne _ _ _ _ _ (by decide), getD_set_self _ _ _ _ l23]
  · rw [getD_set_self _ _ _ _ l29]

/-! ## Claims -/

/-- C1: the claim says an undo of a `RawFrame` (kit0) history entry restores
the raw cached frame and reports success whenever history is non-empty and
the send works.  The code instead calls `self.ddti.restore_kit0_bulk`, a
method `DDTi` does not define, so the `AttributeError` is caught and the
operation reports `False` with the cache left unrestored: with a valid
76-byte snapshot on top of the history and a working transport, undo pops
the entry, returns failure, and leaves the patched (not the snapshot) bulk
frame in the cache. -/
theorem C1_kit0_undo_always_fails :
    undo_last_mapping capWithKit0History true =
      ({ capWithKit0History with history := [] }, false) ∧
    capWithKit0History.ddti.kit0.bulk ≠ some kit0BulkFrame := by
  constructor
  · rfl
  · decide

/-- C2: round-trip — for every slot assignment of exactly 4 values in
`[0, 127]`, building a full frame and reading the bytes back at the note
offsets (masked to 7 bits) yields the assignment again, for any template
long enough to contain the offsets. -/
theorem C2_round_trip (d : DDTi) (S : List Nat)
    (hoff : d.note_offsets = DDTI_NOTE_OFFSETS)
    (hlen : S.length = 4)
    (hval : ∀ v ∈ S, v ≤ 127)
    (htpl : 29 < d.template.length) :
    ∃ d2 F, d.build_full_sysex S = .ok (d2, F) ∧ extract_slots F = S := by
  rcases S with _ | ⟨a, S⟩
  · simp at hlen
  rcases S with _ | ⟨b, S⟩
  · simp at hlen
  rcases S with _ | ⟨c, S⟩
  · simp at hlen
  rcases S with _ | ⟨e, S⟩
  · simp at hlen
  rcases S with _ | ⟨f, S⟩
  case cons.cons.cons.cons.cons =>
    simp only [List.length_cons, List.length_nil] at hlen
    omega
  have ha : a ≤ 127 := hval a (by simp)
  have hb : b ≤ 127 := hval b (by simp)
  have hc : c ≤ 127 := hval c (by simp)
  have he : e ≤ 127 := hval e (by simp)
  have hmask : [a, b, c, e].map (fun n => n % 128) = [a, b, c, e] :=
    mask_eq_self _ hval
  have hvn : validate_notes [a, b, c, e] d.note_offsets.length = .ok [a, b, c, e] := by
    rw [hoff]
    show validate_notes [a, b, c, e] 4 = _
    rw [validate_notes, if_neg (by simp)]
    rw [if_pos (by simp [ha, hb, hc, he]), hmask]
  refine ⟨{ d with current_state := some [a, b, c, e] },
    writeSlots d.template d.note_offsets [a, b, c, e], ?_, ?_⟩
  · rw [DDTi.build_full_sysex, hvn]
  · rw [hoff]
    obtain ⟨h11, h17, h23, h29⟩ := writeSlots_getD_concrete d.template a b c e htpl
    simp only [extract_slots, DDTI_NOTE_OFFSETS, List.map_cons, List.map_nil]
    rw [h11, h17, h23, h29, Nat.mod_eq_of_lt (Nat.lt_succ_of_le ha),
      Nat.mod_eq_of_lt (Nat.lt_succ_of_le hb), Nat.mod_eq_of_lt (Nat.lt_succ_of_le hc),
      Nat.mod_eq_of_lt (Nat.lt_succ_of_le he)]

/-- C2 witness: the round-trip at the concrete assignment `[36, 38, 42, 49]`
over the 76-byte template. -/
theorem C2_round_trip_witness :
    ∃ d2 F, (DDTi.mk0 tpl76).build_full_sysex [36, 38, 42, 49] = .ok (d2, F) ∧
      extract_slots F = [36, 38, 42, 49] :=
  C2_round_trip (DDTi.mk0 tpl76) [36, 38, 42, 49] rfl rfl (by decide) (by decide)

/-- C3: partial-write equivalence — with a known base state of valid slot
values and changes whose indices are in range and values in `[0, 127]`, the
partial path and the full path over the merged state produce the same frame
bytes. -/
theorem C3_partial_write_equiv (d : DDTi) (B : List Nat) (C : List (Nat × Nat))
    (hcs : d.current_state = some B)
    (hlen : B.length = d.note_offsets.length)
    (hB : ∀ v ∈ B, v ≤ 127)
    (hC : ∀ p ∈ C, p.1 < d.note_offsets.length ∧ p.2 ≤ 127) :
    ∃ dp df F, d.build_partial_sysex C = .ok (dp, F) ∧
      d.build_full_sysex (mergeChanges B C) = .ok (df, F) := by
  have hCv : ∀ p ∈ C, p.2 ≤ 127 := fun p hp => (hC p hp).2
  have hidx : (C.all fun c => decide (c.1 < d.note_offsets.length)) = true := by
    rw [List.all_eq_true]
    intro p hp
    exact decide_eq_true (hC p hp).1
  have hmerge := applyChanges_ok B C hCv
  have hmlen : (mergeChanges B C).length = B.length := length_mergeChanges B C
  have hmle : ∀ v ∈ mergeChanges B C, v ≤ 127 := mem_mergeChanges_le B C hB hCv
  have hvn : validate_notes (mergeChanges B C) d.note_offsets.length =
      .ok (mergeChanges B C) := by
    rw [validate_notes, if_neg (by rw [hmlen, hlen]; simp)]
    rw [if_pos (by rw [List.all_eq_true]; intro v hv; exact decide_eq_true (hmle v hv))]
    rw [mask_eq_self _ hmle]
  refine ⟨{ d with current_state := some (mergeChanges B C) },
    { d with current_state := some (mergeChanges B C) },
    writeSlots d.template d.note_offsets (mergeChanges B C), ?_, ?_⟩
  · rw [DDTi.build_partial_sysex, hcs]
    simp only [hidx, if_true, hmerge]
  · rw [DDTi.build_full_sysex, hvn]

/-- C3 witness: partial-write equivalence at base state `[36, 38, 42, 49]`
with changes `{0 ↦ 40, 2 ↦ 41}` over the 76-byte template. -/
theorem C3_partial_write_equiv_witness :
    ∃ dp df F,
      ({ DDTi.mk0 tpl76 with current_state := some [36, 38, 42, 49] } :
        DDTi).build_partial_sysex [(0, 40), (2, 41)] = .ok (dp, F) ∧
      ({ DDTi.mk0 tpl76 with current_state := some [36, 38, 42, 49] } :
        DDTi).build_full_sysex (mergeChanges [36, 38, 42, 49] [(0, 40), (2, 41)]) =
        .ok (df, F) :=
  C3_partial_write_equiv { DDTi.mk0 tpl76 with current_state := some [36, 38, 42, 49] }
    [36, 38, 42, 49] [(0, 40), (2, 41)] rfl rfl (by decide) (by decide)

theorem exists_four (l : List Nat) (h : l.length = 4) :
    ∃ a b c d, l = [a, b, c, d] := by
  rcases l with _ | ⟨a, l⟩
  · simp at h
  rcases l with _ | ⟨b, l⟩
  · simp at h
  rcases l with _ | ⟨c, l⟩
  · simp at h
  rcases l with _ | ⟨d, l⟩
  · simp at h
  rcases l with _ | ⟨e, l⟩
  · exact ⟨a, b, c, d, rfl⟩
  · simp only [List.length_cons, List.length_nil] at h
    omega

theorem sortDesc_four (l : List Nat) (h : l.length = 4) :
    ∃ x0 x1 x2 x3, sortDesc l = [x0, x1, x2, x3] ∧
      x1 ≤ x0 ∧ x2 ≤ x1 ∧ x3 ≤ x2 ∧
      x3 ∈ l ∧ x0 ∈ l ∧ (∀ x ∈ l, x3 ≤ x ∧ x ≤ x0) := by
  have hlen : (sortDesc l).length = 4 := by
    rw [sortDesc, List.length_insertionSort, h]
  have hsorted : List.Sorted (· ≥ ·) (sortDesc l) :=
    List.sorted_insertionSort (· ≥ ·) l
  have hperm : (sortDesc l).Perm l := List.perm_insertionSort (· ≥ ·) l
  obtain ⟨x0, x1, x2, x3, hs⟩ := exists_four _ hlen
  rw [hs] at hsorted hperm
  simp only [List.sorted_cons, List.mem_cons, List.mem_singleton,
    List.not_mem_nil, List.sorted_nil, forall_eq_or_imp, forall_eq] at hsorted
  have hmem : ∀ x, x ∈ l ↔ (x = x0 ∨ x = x1 ∨ x = x2 ∨ x = x3) := by
    intro x
    rw [← hperm.mem_iff]
    simp
  refine ⟨x0, x1, x2, x3, hs, ?_, ?_, ?_, ?_, ?_, ?_⟩
  · exact hsorted.1.1
  · exact hsorted.2.1.1
  · exact hsorted.2.2.1.1
  · exact (hmem x3).mpr (by tauto)
  · exact (hmem x0).mpr (by tauto)
  · intro x hx
    rcases (hmem x).mp hx with rfl | rfl | rfl | rfl
    · exact ⟨by omega, le_refl _⟩
    · refine ⟨by have := hsorted.2.1.1; have := hsorted.2.2.1.1; omega, hsorted.1.1⟩
    · refine ⟨hsorted.2.2.1.1, by have := hsorted.1.2.1; omega⟩
    · exact ⟨le_refl _, by have := hsorted.1.2.2; omega⟩

/-- C4: the fixed remap — for every resolved 4-note chord the final
assignment is `[sorted[3], sorted[0], sorted[1], sorted[2]]` of the
descending sort, so pad0 (kick) receives the lowest note of the chord and
pad1 (snare) the highest, pads 2 and 3 the 2nd- and 3rd-highest; and the
concrete capture `[40, 60, 50, 45]` under duplicates-disallowed resolves to
`[40, 45, 50, 60]` with final device assignment `[40, 60, 50, 45]`. -/
theorem C4_fixed_remap (chord : List Nat) (hlen : chord.length = 4) :
    (remapChord chord =
      [(sortDesc chord).getD 3 0, (sortDesc chord).getD 0 0,
       (sortDesc chord).getD 1 0, (sortDesc chord).getD 2 0] ∧
     (sortDesc chord).getD 3 0 ∈ chord ∧
     (∀ x ∈ chord, (sortDesc chord).getD 3 0 ≤ x) ∧
     (sortDesc chord).getD 0 0 ∈ chord ∧
     (∀ x ∈ chord, x ≤ (sortDesc chord).getD 0 0)) ∧
    ((process_midi_input freshCapture
        { pending := [mkNoteOn 40, mkNoteOn 60, mkNoteOn 50, mkNoteOn 45], sendOk := true }
        0).2.2 = some [40, 45, 50, 60] ∧
     (process_midi_input freshCapture
        { pending := [mkNoteOn 40, mkNoteOn 60, mkNoteOn 50, mkNoteOn 45], sendOk := true }
        0).1.ddti.current_state = some [40, 60, 50, 45]) := by
  obtain ⟨x0, x1, x2, x3, hs, h10, h21, h32, hm3, hm0, hbound⟩ := sortDesc_four chord hlen
  refine ⟨⟨rfl, ?_, ?_, ?_, ?_⟩, by decide, by decide⟩
  · rw [hs]
    exact hm3
  · rw [hs]
    intro x hx
    exact (hbound x hx).1
  · rw [hs]
    exact hm0
  · rw [hs]
    intro x hx
    exact (hbound x hx).2

/-- C4 witness: the remap properties at the concrete chord
`[40, 45, 50, 60]`. -/
theorem C4_fixed_remap_witness :
    (remapChord [40, 45, 50, 60] =
      [(sortDesc [40, 45, 50, 60]).getD 3 0, (sortDesc [40, 45, 50, 60]).getD 0 0,
       (sortDesc [40, 45, 50, 60]).getD 1 0, (sortDesc [40, 45, 50, 60]).getD 2 0] ∧
     (sortDesc [40, 45, 50, 60]).getD 3 0 ∈ [40, 45, 50, 60] ∧
     (∀ x ∈ [40, 45, 50, 60], (sortDesc [40, 45, 50, 60]).getD 3 0 ≤ x) ∧
     (sortDesc [40, 45, 50, 60]).getD 0 0 ∈ [40, 45, 50, 60] ∧
     (∀ x ∈ [40, 45, 50, 60], x ≤ (sortDesc [40, 45, 50, 60]).getD 0 0)) ∧
    ((process_midi_input freshCapture
        { pending := [mkNoteOn 40, mkNoteOn 60, mkNoteOn 50, mkNoteOn 45], sendOk := true }
        0).2.2 = some [40, 45, 50, 60] ∧
     (process_midi_input freshCapture
        { pending := [mkNoteOn 40, mkNoteOn 60, mkNoteOn 50, mkNoteOn 45], sendOk := true }
        0).1.ddti.current_state = some [40, 60, 50, 45]) :=
  C4_fixed_remap [40, 45, 50, 60] rfl

theorem build_full_ok_current_state (d : DDTi) (notes : List Nat) (d2 : DDTi)
    (F : List Nat) (h : d.build_full_sysex notes = .ok (d2, F)) :
    d2.current_state = some (notes.map (fun n => n % 128)) := by
  rw [DDTi.build_full_sysex] at h
  cases hv : validate_notes notes d.note_offsets.length with
  | error e => rw [hv] at h; cases h
  | ok ns =>
    rw [hv] at h
    injection h with h2
    rw [Prod.mk.injEq] at h2
    have h3 := validate_notes_ok _ _ _ hv
    rw [← h2.1, ← h3]

/-- C5 counterexample: capturing the fourth note with the transport send
failing (`sendOk = false`), the bucket is cleared but the Device State
Model's known state does not equal its state before the dispatch — it has
advanced from `[36, 38, 42, 49]`. -/
theorem C5_counterexample :
    (process_midi_input capNearComplete { pending := [mkNoteOn 4], sendOk := false }
        0).1.bucket = [] ∧
    (process_midi_input capNearComplete { pending := [mkNoteOn 4], sendOk := false }
        0).1.ddti.current_state ≠ capNearComplete.ddti.current_state := by
  decide

/-- C5 amended: a failed transport send still consumes the capture, and the
device state IS advanced — `build_full_sysex` updates the tracked state
before the send, and the boolean send result is ignored by the dispatch
block, so the engine state after a failed send equals the engine state
after a successful one, with the known state set to the (masked) attempted
assignment. -/
theorem C5_send_failure_advances_state (c : ChordCapture) (final : List Nat)
    (hb : (c.ddti.build_full_sysex final).isOk = true) :
    dispatchChord c final false = dispatchChord c final true ∧
    (dispatchChord c final false).ddti.current_state =
      some (final.map (fun n => n % 128)) := by
  refine ⟨rfl, ?_⟩
  have hc1 : ∀ h, ({ c with history := h } : ChordCapture).ddti = c.ddti := fun _ => rfl
  rw [dispatchChord]
  cases hg : c.ddti.get_current_state with
  | none =>
    simp only [hg]
    cases hr : c.ddti.build_full_sysex final with
    | error e => rw [hr] at hb; cases hb
    | ok p =>
      obtain ⟨d2, F⟩ := p
      simp only [hr]
      exact build_full_ok_current_state c.ddti final d2 F hr
  | some prev =>
    simp only [hg]
    cases hr : c.ddti.build_full_sysex final with
    | error e => rw [hr] at hb; cases hb
    | ok p =>
      obtain ⟨d2, F⟩ := p
      simp only [hc1, hr]
      exact build_full_ok_current_state c.ddti final d2 F hr

/-- C5 amended witness: the failed-send dispatch at the concrete engine
`capNearComplete` and chord `[1, 4, 3, 2]`. -/
theorem C5_send_failure_advances_state_witness :
    dispatchChord capNearComplete [1, 4, 3, 2] false =
      dispatchChord capNearComplete [1, 4, 3, 2] true ∧
    (dispatchChord capNearComplete [1, 4, 3, 2] false).ddti.current_state =
      some ([1, 4, 3, 2].map (fun n => n % 128)) :=
  C5_send_failure_advances_state capNearComplete [1, 4, 3, 2] (by decide)

/-- C6 counterexample: ingesting a recognized full-kit dump frame does NOT
make the tracked state known — `ingest_sysex_frame` only fills the kit0
cache.  After ingesting a valid 76-byte dump into a fresh `DDTi`,
`get_current_state` still returns `None` and a partial write still fails
with the unknown-base-state error, contrary to the claim. -/
theorem C6_counterexample :
    ((DDTi.mk0 tpl76).ingest_sysex_frame kit0BulkFrame).get_current_state = none ∧
    ((DDTi.mk0 tpl76).ingest_sysex_frame kit0BulkFrame).build_partial_sysex [(0, 40)] =
      .error "Cannot do partial update: current DDTi state unknown" :=
  ⟨rfl, rfl⟩

/-- C6 amended: ingesting one recognized full-kit dump frame (length 76,
header bytes `70, 1, 0` at positions 7, 8, 9) caches the raw frame —
`extract_kit0_notes` then returns the dumped slot values (masked to 7 bits)
instead of `None` — but the slot-state model stays unknown:
`get_current_state` still returns `None` and a partial write still fails
with the unknown-base-state error, until a full write or explicit
`set_current_state`. -/
theorem C6_ingest_fills_kit0_cache_only (d : DDTi) (data : List Nat)
    (h76 : data.length = 76) (h7 : data.getD 7 0 = 70) (h8 : data.getD 8 0 = 1)
    (h9 : data.getD 9 0 = 0) (hcs : d.current_state = none) :
    (d.ingest_sysex_frame data).kit0.bulk = some data ∧
    (d.ingest_sysex_frame data).extract_kit0_notes.2 =
      some (bulkNoteOffsets.map (fun o => data.getD o 0 % 128)) ∧
    (d.ingest_sysex_frame data).get_current_state = none ∧
    ∀ C, (d.ingest_sysex_frame data).build_partial_sysex C =
      .error "Cannot do partial update: current DDTi state unknown" := by
  have hne : data.isEmpty = false := by
    rcases data with _ | ⟨x, xs⟩
    · simp at h76
    · rfl
  have hing : d.ingest_sysex_frame data =
      { d with kit0 := { d.kit0 with bulk := some data, notes := none } } := by
    simp only [DDTi.ingest_sysex_frame]
    rw [if_pos ⟨h76, by omega, h7, h8, h9⟩]
  refine ⟨by rw [hing], ?_, ?_, ?_⟩
  · rw [hing, DDTi.extract_kit0_notes]
    simp only [hne, Bool.false_eq_true, if_false]
    rw [if_neg (by rw [h76]; decide)]
  · rw [hing, DDTi.get_current_state]
    simp only [hcs]
  · intro C
    rw [hing, DDTi.build_partial_sysex]
    simp only [hcs]

/-- C6 amended witness: the amended behaviour at a fresh `DDTi` ingesting
the concrete dump `kit0BulkFrame`. -/
theorem C6_ingest_fills_kit0_cache_only_witness :
    ((DDTi.mk0 tpl76).ingest_sysex_frame kit0BulkFrame).kit0.bulk = some kit0BulkFrame ∧
    ((DDTi.mk0 tpl76).ingest_sysex_frame kit0BulkFrame).extract_kit0_notes.2 =
      some (bulkNoteOffsets.map (fun o => kit0BulkFrame.getD o 0 % 128)) ∧
    ((DDTi.mk0 tpl76).ingest_sysex_frame kit0BulkFrame).get_current_state = none ∧
    ∀ C, ((DDTi.mk0 tpl76).ingest_sysex_frame kit0BulkFrame).build_partial_sysex C =
      .error "Cannot do partial update: current DDTi state unknown" :=
  C6_ingest_fills_kit0_cache_only (DDTi.mk0 tpl76) kit0BulkFrame (by decide) (by decide)
    (by decide) (by decide) rfl

/-- C7 counterexample: under duplicates-disallowed, the same note arriving
twice within one poll's pending batch yields a bucket with TWO occurrences,
not one — the duplicate check consults only the bucket, not the notes
accepted earlier in the same batch. -/
theorem C7_counterexample :
    (process_midi_input freshCapture
        { pending := [mkNoteOn 60, mkNoteOn 60], sendOk := true } 0).1.bucket.count 60 =
      2 := by
  decide

/-- C7 amended: under duplicates-disallowed, a note already in the bucket at
the start of a poll is dropped, so the same note fed in two separate polls
leaves one occurrence; but two occurrences within a single poll's pending
batch are both appended, leaving two.  Under duplicates-allowed both arrival
patterns leave two occurrences. -/
theorem C7_duplicate_suppression (n : Nat) :
    (twoPolls freshCapture n).bucket = [n] ∧
    (process_midi_input freshCapture
        { pending := [mkNoteOn n, mkNoteOn n], sendOk := true } 0).1.bucket = [n, n] ∧
    (twoPolls freshCaptureDup n).bucket = [n, n] ∧
    (process_midi_input freshCaptureDup
        { pending := [mkNoteOn n, mkNoteOn n], sendOk := true } 0).1.bucket = [n, n] := by
  refine ⟨?_, ?_, ?_, ?_⟩ <;>
    simp [twoPolls, process_midi_input, freshCapture, freshCaptureDup, mkNoteOn]

/-- C7 amended witness: the duplicate-policy behaviour at the concrete note
60. -/
theorem C7_duplicate_suppression_witness :
    (twoPolls freshCapture 60).bucket = [60] ∧
    (process_midi_input freshCapture
        { pending := [mkNoteOn 60, mkNoteOn 60], sendOk := true } 0).1.bucket = [60, 60] ∧
    (twoPolls freshCaptureDup 60).bucket = [60, 60] ∧
    (process_midi_input freshCaptureDup
        { pending := [mkNoteOn 60, mkNoteOn 60], sendOk := true } 0).1.bucket = [60, 60] :=
  C7_duplicate_suppression 60

theorem push_history_entry_length_le (hist : List HistoryEntry) (limit : Nat)
    (e : HistoryEntry) (h : hist.length ≤ limit) :
    (push_history_entry hist limit e).length ≤ limit := by
  simp only [push_history_entry]
  split
  · exact h
  · split
    · rename_i hgt
      rw [List.length_tail]
      simp only [List.length_append, List.length_cons, List.length_nil] at hgt ⊢
      omega
    · rename_i hle
      simp only [List.length_append, List.length_cons, List.length_nil,
        Nat.not_lt] at hle ⊢
      omega

/-- C8: history invariant — starting at or below the bound, any sequence of
pushes keeps the history length at most `K`; a push equal to the current
top is a no-op; and pushing `K + 1 = 9` distinct mapping snapshots into an
empty history with the observed bound `K = 8` leaves exactly the last 8,
with the oldest evicted. -/
theorem C8_history_invariant :
    (∀ (limit : Nat) (es hist : List HistoryEntry), hist.length ≤ limit →
      (es.foldl (fun h e => push_history_entry h limit e) hist).length ≤ limit) ∧
    (∀ (hist : List HistoryEntry) (limit : Nat) (e : HistoryEntry),
      hist.getLast? = some e → push_history_entry hist limit e = hist) ∧
    (((List.range 9).map (fun i => HistoryEntry.mapping [i])).foldl
        (fun h e => push_history_entry h 8 e) [] =
      (List.range' 1 8).map (fun i => HistoryEntry.mapping [i]) ∧
     (((List.range 9).map (fun i => HistoryEntry.mapping [i])).foldl
        (fun h e => push_history_entry h 8 e) []).length = 8 ∧
     HistoryEntry.mapping [0] ∉
       ((List.range 9).map (fun i => HistoryEntry.mapping [i])).foldl
         (fun h e => push_history_entry h 8 e) []) := by
  refine ⟨?_, ?_, by decide, by decide, by decide⟩
  · intro limit es
    induction es with
    | nil => intro hist h; exact h
    | cons e rest ih =>
      intro hist h
      rw [List.foldl_cons]
      exact ih _ (push_history_entry_length_le hist limit e h)
  · intro hist limit e h
    rw [push_history_entry, if_pos h]

/-- C8 witness: the bound and the top-equal no-op at concrete histories. -/
theorem C8_history_invariant_witness :
    (([HistoryEntry.mapping [1], HistoryEntry.mapping [2]].foldl
        (fun h e => push_history_entry h 8 e) []).length ≤ 8) ∧
    push_history_entry [HistoryEntry.mapping [3]] 8 (HistoryEntry.mapping [3]) =
      [HistoryEntry.mapping [3]] :=
  ⟨C8_history_invariant.1 8 [HistoryEntry.mapping [1], HistoryEntry.mapping [2]] []
      (by decide),
   C8_history_invariant.2.1 [HistoryEntry.mapping [3]] 8 (HistoryEntry.mapping [3])
      (by decide)⟩

theorem validate_notes_ok_length (notes : List Nat) (k : Nat) (ns : List Nat)
    (h : validate_notes notes k = .ok ns) : notes.length = k := by
  unfold validate_notes at h
  split at h
  · exact absurd h (by simp)
  · rename_i hne
    exact of_not_not hne

/-- C10: while the engine is inactive, a poll drains all pending transport
input, returns `None`, and leaves the engine — bucket, history, and device
state included — unchanged. -/
theorem C10_inactive_poll (c : ChordCapture) (m : MidiState) (now : Nat)
    (h : c.active = false) :
    process_midi_input c m now = (c, { m with pending := [] }, none) := by
  rw [process_midi_input, if_pos (by simp [h])]

/-- C10 witness: the inactive-poll behaviour at a concrete engine with
pending input, a non-empty bucket and a known device state. -/
theorem C10_inactive_poll_witness :
    process_midi_input { capNearComplete with active := false }
        { pending := [mkNoteOn 60, mkNoteOn 61], sendOk := true } 7 =
      ({ capNearComplete with active := false },
       { pending := ([] : List MidiMsg), sendOk := true }, none) :=
  C10_inactive_poll { capNearComplete with active := false }
    { pending := [mkNoteOn 60, mkNoteOn 61], sendOk := true } 7 rfl

/-- C9 counterexample: `set_current_state` (the explicit state override)
validates only the length, not the range — it accepts `[200, 0, 0, 0]` and
stores the out-of-range value 200 unmasked, contrary to the claim that
every stored note value is masked/clamped into `[0, 127]`. -/
theorem C9_counterexample :
    (DDTi.mk0 tpl76).set_current_state [200, 0, 0, 0] =
      .ok { DDTi.mk0 tpl76 with current_state := some [200, 0, 0, 0] } ∧
    ¬ (200 : Nat) ≤ 127 :=
  ⟨rfl, by decide⟩

theorem extract_kit0_notes_bulk (d : DDTi) :
    d.extract_kit0_notes.1.kit0.bulk = d.kit0.bulk := by
  obtain ⟨offs, tpl, cs, bulk, param, notes⟩ := d
  rcases bulk with _ | b
  · rfl
  · rw [DDTi.extract_kit0_notes]
    dsimp only
    split
    · rfl
    · rcases notes with _ | ns
      · dsimp only
        split
        · rfl
        · rfl
      · rfl

theorem mem_map_mod_le (ns : List Nat) (v : Nat)
    (h : v ∈ ns.map (fun n => n % 128)) : v ≤ 127 := by
  obtain ⟨x, -, rfl⟩ := List.mem_map.mp h
  exact Nat.le_of_lt_succ (Nat.mod_lt x (by omega))

theorem writeSlots_getD_le (t offs vals : List Nat) (o : Nat)
    (hlen : vals.length = offs.length) (hv : ∀ v ∈ vals, v ≤ 127)
    (ho : o ∈ offs) (hl : o < t.length) :
    (writeSlots t offs vals).getD o 0 ≤ 127 := by
  apply foldl_set_getD_le
  · intro p hp
    exact hv p.2 (List.of_mem_zip hp).2
  · rw [List.map_fst_zip offs vals (le_of_eq hlen.symm)]
    exact ho
  · exact hl

/-- C9 amended: the range invariant holds where the code masks or
validates — a full write stores and emits only masked values in `[0, 127]`;
a partial write stays in `[0, 127]` provided the base state it copies is in
range; the raw kit0 patch writes only the masked new note (every byte it
changes equals `new_note & 0x7F`) — but the explicit state override
`set_current_state` validates only the length and stores arbitrary values
unmasked, so the invariant does not extend to it. -/
theorem C9_range_invariant_scope :
    (∀ (d : DDTi) (notes : List Nat) (d2 : DDTi) (F : List Nat),
      d.build_full_sysex notes = .ok (d2, F) →
      (∀ s, d2.current_state = some s → ∀ v ∈ s, v ≤ 127) ∧
      (∀ o ∈ d.note_offsets, o < d.template.length → F.getD o 0 ≤ 127)) ∧
    (∀ (d : DDTi) (C : List (Nat × Nat)) (d2 : DDTi) (F B : List Nat),
      d.current_state = some B → (∀ v ∈ B, v ≤ 127) →
      B.length = d.note_offsets.length →
      d.build_partial_sysex C = .ok (d2, F) →
      (∀ s, d2.current_state = some s → ∀ v ∈ s, v ≤ 127) ∧
      (∀ o ∈ d.note_offsets, o < d.template.length → F.getD o 0 ≤ 127)) ∧
    (∀ (d : DDTi) (old_note new_note : Nat) (d2 : DDTi) (F : List Nat),
      d.build_kit0_single_note_patch old_note new_note = (d2, some F) →
      ∀ o dflt, F.getD o dflt = (d.kit0.bulk.getD []).getD o dflt ∨
        F.getD o dflt = new_note % 128) ∧
    (∀ (d : DDTi) (notes : List Nat), notes.length = d.note_offsets.length →
      d.set_current_state notes = .ok { d with current_state := some notes }) := by
  refine ⟨?_, ?_, ?_, ?_⟩
  · -- (a) full write
    intro d notes d2 F h
    rw [DDTi.build_full_sysex] at h
    cases hv : validate_notes notes d.note_offsets.length with
    | error e => rw [hv] at h; cases h
    | ok ns =>
      rw [hv] at h
      injection h with h2
      rw [Prod.mk.injEq] at h2
      have hns := validate_notes_ok _ _ _ hv
      have hlen : ns.length = d.note_offsets.length := by
        rw [hns, List.length_map]
        exact validate_notes_ok_length _ _ _ hv
      have hle : ∀ v ∈ ns, v ≤ 127 := fun v hvm => mem_map_mod_le notes v (hns ▸ hvm)
      constructor
      · intro s hof
        rw [← h2.1] at hof
        cases hof
        exact hle
      · intro o ho hl
        rw [← h2.2]
        exact writeSlots_getD_le _ _ _ _ hlen hle ho hl
  · -- (b) partial write
    intro d C d2 F B hcs hB hBlen h
    simp only [DDTi.build_partial_sysex, hcs] at h
    split at h
    · cases ha : applyChanges B C with
      | error e => rw [ha] at h; cases h
      | ok ns =>
        rw [ha] at h
        injection h with h2
        rw [Prod.mk.injEq] at h2
        obtain ⟨hle, hlen⟩ := applyChanges_ok_inv B C ns ha hB
        constructor
        · intro s hof
          rw [← h2.1] at hof
          cases hof
          exact hle
        · intro o ho hl
          rw [← h2.2]
          exact writeSlots_getD_le _ _ _ _ (hlen.trans hBlen) hle ho hl
    · cases h
  · -- (c) raw patch
    intro d old_note new_note d2 F h
    rw [DDTi.build_kit0_single_note_patch] at h
    by_cases hhb : d.have_kit0_bulk = true
    case neg =>
      rw [if_pos (by simp [hhb])] at h
      simp at h
    case pos =>
      rw [if_neg (by simp [hhb])] at h
      cases hx : d.extract_kit0_notes with
      | mk d1 onotes =>
        rw [hx] at h
        have hbulk : d1.kit0.bulk = d.kit0.bulk := by
          have hbk := extract_kit0_notes_bulk d
          rw [hx] at hbk
          exact hbk
        cases onotes with
        | none => simp at h
        | some notes =>
          dsimp only at h
          split at h
          · simp at h
          · split at h
            · simp at h
            · rw [Prod.mk.injEq, Option.some.injEq] at h
              intro o dflt
              rw [← h.2, ← hbulk]
              exact foldl_setf_getD_or _ (fun idx => bulkNoteOffsets.getD idx 0) _ _ o dflt
  · -- (d) explicit override
    intro d notes hlen
    rw [DDTi.set_current_state, if_neg (by simp [hlen])]

/-- C9 amended witness: the four amended behaviours at concrete inputs —
full write of `[36, 38, 42, 49]`, partial write `{0 ↦ 40}` over that base,
kit0 patch `36 ↦ 48`, and the unvalidated override storing `[200, 0, 0, 0]`. -/
theorem C9_range_invariant_scope_witness :
    ((∀ s, ({ DDTi.mk0 tpl76 with current_state := some [36, 38, 42, 49] } :
        DDTi).current_state = some s → ∀ v ∈ s, v ≤ 127) ∧
     (∀ o ∈ (DDTi.mk0 tpl76).note_offsets, o < (DDTi.mk0 tpl76).template.length →
       (writeSlots tpl76 DDTI_NOTE_OFFSETS [36, 38, 42, 49]).getD o 0 ≤ 127)) ∧
    ((∀ s, ({ DDTi.mk0 tpl76 with current_state := some [40, 38, 42, 49] } :
        DDTi).current_state = some s → ∀ v ∈ s, v ≤ 127) ∧
     (∀ o ∈ ({ DDTi.mk0 tpl76 with current_state := some [36, 38, 42, 49] } :
        DDTi).note_offsets,
       o < ({ DDTi.mk0 tpl76 with current_state := some [36, 38, 42, 49] } :
        DDTi).template.length →
       (writeSlots tpl76 DDTI_NOTE_OFFSETS [40, 38, 42, 49]).getD o 0 ≤ 127)) ∧
    (∀ o dflt,
      ((kit0BulkFrame.set 11 36).set 11 48).getD o dflt =
        ((((DDTi.mk0 tpl76).ingest_sysex_frame
            (kit0BulkFrame.set 11 36)).kit0.bulk.getD []).getD o dflt) ∨
      ((kit0BulkFrame.set 11 36).set 11 48).getD o dflt = 48 % 128) ∧
    (DDTi.mk0 tpl76).set_current_state [200, 0, 0, 0] =
      .ok { DDTi.mk0 tpl76 with current_state := some [200, 0, 0, 0] } :=
  ⟨C9_range_invariant_scope.1 (DDTi.mk0 tpl76) [36, 38, 42, 49]
      { DDTi.mk0 tpl76 with current_state := some [36, 38, 42, 49] }
      (writeSlots tpl76 DDTI_NOTE_OFFSETS [36, 38, 42, 49]) rfl,
   C9_range_invariant_scope.2.1
      { DDTi.mk0 tpl76 with current_state := some [36, 38, 42, 49] } [(0, 40)]
      { DDTi.mk0 tpl76 with current_state := some [40, 38, 42, 49] }
      (writeSlots tpl76 DDTI_NOTE_OFFSETS [40, 38, 42, 49]) [36, 38, 42, 49]
      rfl (by decide) rfl rfl,
   C9_range_invariant_scope.2.2.1
      ((DDTi.mk0 tpl76).ingest_sysex_frame (kit0BulkFrame.set 11 36)) 36 48
      (((DDTi.mk0 tpl76).ingest_sysex_frame (kit0BulkFrame.set 11 36)).build_kit0_single_note_patch
          36 48).1
      ((kit0BulkFrame.set 11 36).set 11 48) (by decide),
   C9_range_invariant_scope.2.2.2 (DDTi.mk0 tpl76) [200, 0, 0, 0] rfl⟩

end Chordtokit
